import Mathlib

/-!
# Verification of the welfare metrics calculator (`src/analysis/mc_welfare.py`)

Shallow embedding of `compute_welfare` over exact rational arithmetic.
Each seed row of the Monte Carlo terminal data carries an unemployment
rate, a market wage and a price level; the calculator derives a
two-class income split, per-capita consumption and a closed-form
two-class Gini coefficient.  Python's `int(...)` conversion truncates
toward zero, which is `Int.tdiv` on the numerator/denominator of a
rational.
-/

namespace McWelfare

/-- One row of terminal Monte Carlo data (columns `Unemployment`,
`MarketWage`, `PriceLevel` consumed by `compute_welfare`). -/
structure SeedRecord where
  unemploymentRate : ℚ
  marketWage : ℚ
  priceLevel : ℚ
deriving DecidableEq

/-- One output row of `compute_welfare`: the dictionary appended to
`results` for each seed. -/
structure WelfareRecord where
  real_consumption : ℚ
  gini : ℚ
  income_floor : ℚ
  nominal_consumption : ℚ
deriving DecidableEq

/-- Python's `int(x)` on a rational value: truncation toward zero. -/
def truncInt (q : ℚ) : ℤ := q.num.tdiv q.den

/-- Module-level constant `POP = 100_000`. -/
def POP : ℤ := 100000

/-- Module-level constant `MPC = 0.82`. -/
def MPC : ℚ := 82 / 100

/-- `n_employed = int((1 - unemp_rate) * POP)`. -/
def nEmployed (pop : ℤ) (r : SeedRecord) : ℤ :=
  truncInt ((1 - r.unemploymentRate) * (pop : ℚ))

/-- `n_unemployed = POP - n_employed`. -/
def nUnemployed (pop : ℤ) (r : SeedRecord) : ℤ :=
  pop - nEmployed pop r

/-- `y_emp = wage + bdp_amount`. -/
def yEmployed (bdp : ℚ) (r : SeedRecord) : ℚ := r.marketWage + bdp

/-- `y_unemp = bdp_amount`. -/
def yUnemployed (bdp : ℚ) : ℚ := bdp

/-- `total_income = n_employed * y_emp + n_unemployed * y_unemp`. -/
def totalIncome (pop : ℤ) (bdp : ℚ) (r : SeedRecord) : ℚ :=
  (nEmployed pop r : ℚ) * yEmployed bdp r
    + (nUnemployed pop r : ℚ) * yUnemployed bdp

/-- `nominal_consumption = total_income * MPC / POP`. -/
def nominalConsumption (pop : ℤ) (mpc bdp : ℚ) (r : SeedRecord) : ℚ :=
  totalIncome pop bdp r * mpc / (pop : ℚ)

/-- The body of the per-row loop of `compute_welfare`, with the
module-level globals `POP` and `MPC` passed explicitly. -/
def computeRecord (pop : ℤ) (mpc bdp : ℚ) (r : SeedRecord) : WelfareRecord :=
  { real_consumption := nominalConsumption pop mpc bdp r / r.priceLevel
    gini :=
      if 0 < totalIncome pop bdp r ∧ yEmployed bdp r ≠ yUnemployed bdp then
        ((nEmployed pop r : ℚ) * (nUnemployed pop r : ℚ)
            * |yEmployed bdp r - yUnemployed bdp|)
          / ((pop : ℚ) * totalIncome pop bdp r)
      else 0
    income_floor := bdp
    nominal_consumption := nominalConsumption pop mpc bdp r }

/-- `compute_welfare(df, bdp_amount)`: one output row per input row, in
input order, at the module-level constants `POP` and `MPC`. -/
def compute_welfare (df : List SeedRecord) (bdp_amount : ℚ) : List WelfareRecord :=
  df.map (computeRecord POP MPC bdp_amount)

/-- The concrete scenario of §8 of the spec. -/
def scenarioRecord : SeedRecord :=
  { unemploymentRate := 1/20, marketWage := 4000, priceLevel := 11/10 }

/-! ## Helper lemmas about truncation -/

theorem truncInt_eq_floor {q : ℚ} (h : 0 ≤ q) : truncInt q = ⌊q⌋ := by
  rw [truncInt, Rat.floor_def,
    Int.tdiv_eq_ediv (Rat.num_nonneg.mpr h) (Int.natCast_nonneg q.den)]

theorem truncInt_intCast (n : ℤ) : truncInt (n : ℚ) = n := by
  simp [truncInt]

theorem truncInt_nonneg {q : ℚ} (h : 0 ≤ q) : 0 ≤ truncInt q := by
  rw [truncInt_eq_floor h]
  exact Int.floor_nonneg.mpr h

theorem truncInt_le {q : ℚ} {n : ℤ} (h0 : 0 ≤ q) (h : q ≤ (n : ℚ)) :
    truncInt q ≤ n := by
  rw [truncInt_eq_floor h0]
  calc ⌊q⌋ ≤ ⌊(n : ℚ)⌋ := Int.floor_le_floor h
    _ = n := Int.floor_intCast n

theorem nEmployed_nonneg (r : SeedRecord) (h : r.unemploymentRate ≤ 1) :
    0 ≤ nEmployed POP r := by
  refine truncInt_nonneg ?_
  have h1 : (0 : ℚ) ≤ 1 - r.unemploymentRate := by linarith
  have h2 : (0 : ℚ) ≤ (POP : ℚ) := by norm_num [POP]
  positivity

theorem nEmployed_le_POP (r : SeedRecord) (h : 0 ≤ r.unemploymentRate)
    (h1 : r.unemploymentRate ≤ 1) : nEmployed POP r ≤ POP := by
  refine truncInt_le ?_ ?_
  · have : (0 : ℚ) ≤ 1 - r.unemploymentRate := by linarith
    have h2 : (0 : ℚ) ≤ (POP : ℚ) := by norm_num [POP]
    positivity
  · have h2 : (0 : ℚ) < (POP : ℚ) := by norm_num [POP]
    nlinarith

/-! ## Claims -/

/-- C1: the gini field is set by the two-class closed form, guarded by
`totalIncome > 0` and `yEmployed ≠ yUnemployed`, and otherwise zero; under
the guard the denominator `POP * totalIncome` is nonzero. -/
theorem gini_two_class_form (bdp : ℚ) (r : SeedRecord) :
    ((computeRecord POP MPC bdp r).gini =
      if 0 < totalIncome POP bdp r ∧ yEmployed bdp r ≠ yUnemployed bdp then
        ((nEmployed POP r : ℚ) * (nUnemployed POP r : ℚ)
            * |yEmployed bdp r - yUnemployed bdp|)
          / ((POP : ℚ) * totalIncome POP bdp r)
      else 0) ∧
    (0 < totalIncome POP bdp r → (POP : ℚ) * totalIncome POP bdp r ≠ 0) := by
  constructor
  · rfl
  · intro h
    have hp : (0 : ℚ) < (POP : ℚ) := by norm_num [POP]
    exact ne_of_gt (mul_pos hp h)

theorem scenario_nEmployed : nEmployed POP scenarioRecord = 95000 := by
  have harg : (1 - scenarioRecord.unemploymentRate) * (POP : ℚ)
      = ((95000 : ℤ) : ℚ) := by
    norm_num [scenarioRecord, POP]
  rw [nEmployed, harg, truncInt_intCast]

theorem scenario_totalIncome : totalIncome POP 2000 scenarioRecord = 580000000 := by
  rw [totalIncome, nUnemployed, scenario_nEmployed]
  norm_num [yEmployed, yUnemployed, scenarioRecord, POP]

/-- Witness for C1 at the concrete §8 scenario. -/
theorem gini_two_class_form_witness :
    (POP : ℚ) * totalIncome POP 2000 scenarioRecord ≠ 0 :=
  (gini_two_class_form 2000 scenarioRecord).2
    (by rw [scenario_totalIncome]; norm_num)

/-- C2: `compute_welfare` yields one record per input row in input order,
and each row's fields follow the per-record formulas: truncated employed
count, complementary unemployed count, the two income classes, total
income, per-capita nominal consumption, and the transfer pass-through. -/
theorem compute_welfare_row_formulas (df : List SeedRecord) (bdp : ℚ) :
    (compute_welfare df bdp).length = df.length ∧
    (∀ i : ℕ, (compute_welfare df bdp)[i]? =
      (df[i]?).map (computeRecord POP MPC bdp)) ∧
    (∀ r : SeedRecord,
      nEmployed POP r = truncInt ((1 - r.unemploymentRate) * (POP : ℚ)) ∧
      nUnemployed POP r = POP - nEmployed POP r ∧
      yEmployed bdp r = r.marketWage + bdp ∧
      yUnemployed bdp = bdp ∧
      totalIncome POP bdp r = (nEmployed POP r : ℚ) * yEmployed bdp r
        + (nUnemployed POP r : ℚ) * yUnemployed bdp ∧
      (computeRecord POP MPC bdp r).nominal_consumption
        = totalIncome POP bdp r * MPC / (POP : ℚ) ∧
      (computeRecord POP MPC bdp r).income_floor = bdp) := by
  refine ⟨List.length_map df _, fun i => List.getElem?_map _ df i, fun r => ?_⟩
  exact ⟨rfl, rfl, rfl, rfl, rfl, rfl, rfl⟩

/-- C3: the real-consumption field is exactly the nominal-consumption
field divided by the record's price level. -/
theorem real_consumption_deflated (bdp : ℚ) (r : SeedRecord)
    (h : 0 < r.priceLevel) :
    (computeRecord POP MPC bdp r).real_consumption
      = (computeRecord POP MPC bdp r).nominal_consumption / r.priceLevel := rfl

/-- Witness for C3 at the concrete §8 scenario (`priceLevel = 1.10 > 0`). -/
theorem real_consumption_deflated_witness :
    0 < scenarioRecord.priceLevel ∧
    (computeRecord POP MPC 2000 scenarioRecord).real_consumption
      = (computeRecord POP MPC 2000 scenarioRecord).nominal_consumption
          / scenarioRecord.priceLevel :=
  ⟨by norm_num [scenarioRecord],
    real_consumption_deflated 2000 scenarioRecord (by norm_num [scenarioRecord])⟩

/-- C4 (code behavior at the failing input): on a record with
`priceLevel = 0` the source raises nothing and still emits a
WelfareRecord — the batch output has one row, carrying the pass-through
fields; no `InvalidPriceLevel` rejection exists in the code. -/
theorem compute_welfare_accepts_nonpositive_price :
    (compute_welfare
        [{ unemploymentRate := 0, marketWage := 5, priceLevel := 0 }] 2000).length = 1 ∧
    (compute_welfare
        [{ unemploymentRate := 0, marketWage := 5, priceLevel := 0 }] 2000).map
      WelfareRecord.income_floor = [2000] := ⟨rfl, rfl⟩

/-- C5: the concrete §8 scenario (`POP = 100000`, `MPC = 0.82`,
`bdpAmount = 2000`, `unemploymentRate = 0.05`, `marketWage = 4000`,
`priceLevel = 1.10`) yields the quoted class counts, total income,
nominal and real consumption, and Gini value. -/
theorem concrete_scenario_values :
    nEmployed POP scenarioRecord = 95000 ∧
    nUnemployed POP scenarioRecord = 5000 ∧
    totalIncome POP 2000 scenarioRecord = 580000000 ∧
    (computeRecord POP MPC 2000 scenarioRecord).nominal_consumption = 4756 ∧
    (computeRecord POP MPC 2000 scenarioRecord).real_consumption
      = 4756 / (11/10) ∧
    (computeRecord POP MPC 2000 scenarioRecord).gini
      = 1900000000000 / 58000000000000 := by
  have hn : nEmployed POP scenarioRecord = 95000 := scenario_nEmployed
  have hu : nUnemployed POP scenarioRecord = 5000 := by
    rw [nUnemployed, hn]; norm_num [POP]
  have ht : totalIncome POP 2000 scenarioRecord = 580000000 := scenario_totalIncome
  have hnom : (computeRecord POP MPC 2000 scenarioRecord).nominal_consumption
      = 4756 := by
    show nominalConsumption POP MPC 2000 scenarioRecord = 4756
    rw [nominalConsumption, ht]
    norm_num [MPC, POP]
  refine ⟨hn, hu, ht, hnom, ?_, ?_⟩
  · show nominalConsumption POP MPC 2000 scenarioRecord
        / scenarioRecord.priceLevel = 4756 / (11/10)
    rw [show nominalConsumption POP MPC 2000 scenarioRecord
        = (computeRecord POP MPC 2000 scenarioRecord).nominal_consumption from rfl,
      hnom]
    norm_num [scenarioRecord]
  · show (if 0 < totalIncome POP 2000 scenarioRecord
          ∧ yEmployed 2000 scenarioRecord ≠ yUnemployed 2000 then
        ((nEmployed POP scenarioRecord : ℚ) * (nUnemployed POP scenarioRecord : ℚ)
            * |yEmployed 2000 scenarioRecord - yUnemployed 2000|)
          / ((POP : ℚ) * totalIncome POP 2000 scenarioRecord)
      else 0) = 1900000000000 / 58000000000000
    rw [if_pos ⟨by rw [ht]; norm_num,
      by norm_num [yEmployed, yUnemployed, scenarioRecord]⟩, ht, hn, hu]
    norm_num [yEmployed, yUnemployed, scenarioRecord, POP]

/-- C6: with `unemploymentRate ∈ [0, 1)`, nonnegative wage and
nonnegative transfer, the output gini lies in `[0, 1)`. -/
theorem gini_in_unit_range (bdp : ℚ) (r : SeedRecord)
    (hu0 : 0 ≤ r.unemploymentRate) (hu1 : r.unemploymentRate < 1)
    (hw : 0 ≤ r.marketWage) (hb : 0 ≤ bdp) :
    0 ≤ (computeRecord POP MPC bdp r).gini ∧
    (computeRecord POP MPC bdp r).gini < 1 := by
  have hE0 : 0 ≤ nEmployed POP r := nEmployed_nonneg r hu1.le
  have hEP : nEmployed POP r ≤ POP := nEmployed_le_POP r hu0 hu1.le
  have hP : (0 : ℚ) < (POP : ℚ) := by norm_num [POP]
  have hU : (nUnemployed POP r : ℚ) = (POP : ℚ) - (nEmployed POP r : ℚ) := by
    rw [nUnemployed]; push_cast; ring
  have ha0 : (0 : ℚ) ≤ (nEmployed POP r : ℚ) := by exact_mod_cast hE0
  have haP : (nEmployed POP r : ℚ) ≤ (POP : ℚ) := by exact_mod_cast hEP
  have hgini : (computeRecord POP MPC bdp r).gini =
      if 0 < totalIncome POP bdp r ∧ yEmployed bdp r ≠ yUnemployed bdp then
        ((nEmployed POP r : ℚ) * (nUnemployed POP r : ℚ)
            * |yEmployed bdp r - yUnemployed bdp|)
          / ((POP : ℚ) * totalIncome POP bdp r)
      else 0 := rfl
  rw [hgini]
  split_ifs with hc
  · obtain ⟨hti, hne⟩ := hc
    have hwpos : 0 < r.marketWage := by
      rcases lt_or_eq_of_le hw with h | h
      · exact h
      · exact absurd (by rw [yEmployed, yUnemployed, ← h, zero_add]) hne
    have habs : |yEmployed bdp r - yUnemployed bdp| = r.marketWage := by
      rw [yEmployed, yUnemployed, add_sub_cancel_right]
      exact abs_of_pos hwpos
    have hu0' : (0 : ℚ) ≤ (nUnemployed POP r : ℚ) := by rw [hU]; linarith
    constructor
    · exact div_nonneg (mul_nonneg (mul_nonneg ha0 hu0') (abs_nonneg _))
        (le_of_lt (mul_pos hP hti))
    · rw [div_lt_one (mul_pos hP hti), habs]
      have htotal : totalIncome POP bdp r
          = (nEmployed POP r : ℚ) * r.marketWage + (POP : ℚ) * bdp := by
        rw [totalIncome, hU, yEmployed, yUnemployed]; ring
      rcases eq_or_lt_of_le hE0 with h | h
      · have hz : (nEmployed POP r : ℚ) = 0 := by exact_mod_cast h.symm
        rw [hz, zero_mul, zero_mul]
        exact mul_pos hP hti
      · have h1 : (1 : ℚ) ≤ (nEmployed POP r : ℚ) := by exact_mod_cast h
        rw [hU, htotal]
        nlinarith [mul_pos (mul_pos (lt_of_lt_of_le zero_lt_one h1)
            (lt_of_lt_of_le zero_lt_one h1)) hwpos,
          mul_nonneg (mul_nonneg hP.le hP.le) hb]
  · exact ⟨le_refl 0, by norm_num⟩

/-- Witness for C6 at the concrete §8 scenario. -/
theorem gini_in_unit_range_witness :
    0 ≤ (computeRecord POP MPC 2000 scenarioRecord).gini ∧
    (computeRecord POP MPC 2000 scenarioRecord).gini < 1 :=
  gini_in_unit_range 2000 scenarioRecord (by norm_num [scenarioRecord])
    (by norm_num [scenarioRecord]) (by norm_num [scenarioRecord]) (by norm_num)

/-- C7: gini is zero in each degenerate single-class case: zero wage
(equal incomes), zero unemployment (no unemployed class), and full
unemployment (no employed class). -/
theorem gini_degenerate_cases (bdp : ℚ) (r : SeedRecord) :
    (r.marketWage = 0 → (computeRecord POP MPC bdp r).gini = 0) ∧
    (r.unemploymentRate = 0 →
      nUnemployed POP r = 0 ∧ (computeRecord POP MPC bdp r).gini = 0) ∧
    (r.unemploymentRate = 1 →
      nEmployed POP r = 0 ∧ (computeRecord POP MPC bdp r).gini = 0) := by
  have hgini : (computeRecord POP MPC bdp r).gini =
      if 0 < totalIncome POP bdp r ∧ yEmployed bdp r ≠ yUnemployed bdp then
        ((nEmployed POP r : ℚ) * (nUnemployed POP r : ℚ)
            * |yEmployed bdp r - yUnemployed bdp|)
          / ((POP : ℚ) * totalIncome POP bdp r)
      else 0 := rfl
  refine ⟨fun hw => ?_, fun hu => ?_, fun hu => ?_⟩
  · rw [hgini, if_neg]
    rintro ⟨-, hne⟩
    exact hne (by rw [yEmployed, yUnemployed, hw, zero_add])
  · have hE : nEmployed POP r = POP := by
      rw [nEmployed, hu, sub_zero, one_mul, truncInt_intCast]
    have hnU : nUnemployed POP r = 0 := by rw [nUnemployed, hE, sub_self]
    refine ⟨hnU, ?_⟩
    rw [hgini]
    split_ifs with hc
    · rw [hnU]
      norm_num
    · rfl
  · have hE : nEmployed POP r = 0 := by
      have harg : (1 - r.unemploymentRate) * (POP : ℚ) = ((0 : ℤ) : ℚ) := by
        rw [hu, sub_self, zero_mul, Int.cast_zero]
      rw [nEmployed, harg, truncInt_intCast]
    refine ⟨hE, ?_⟩
    rw [hgini]
    split_ifs with hc
    · rw [hE]
      norm_num
    · rfl

/-- Witness for C7 at three concrete records, one per degenerate case. -/
theorem gini_degenerate_cases_witness :
    (computeRecord POP MPC 2000
      { unemploymentRate := 1/2, marketWage := 0, priceLevel := 1 }).gini = 0 ∧
    (nUnemployed POP
        { unemploymentRate := 0, marketWage := 4000, priceLevel := 1 } = 0 ∧
      (computeRecord POP MPC 2000
        { unemploymentRate := 0, marketWage := 4000, priceLevel := 1 }).gini = 0) ∧
    (nEmployed POP
        { unemploymentRate := 1, marketWage := 4000, priceLevel := 1 } = 0 ∧
      (computeRecord POP MPC 2000
        { unemploymentRate := 1, marketWage := 4000, priceLevel := 1 }).gini = 0) :=
  ⟨(gini_degenerate_cases 2000 _).1 rfl,
    (gini_degenerate_cases 2000 _).2.1 rfl,
    (gini_degenerate_cases 2000 _).2.2 rfl⟩

/-- C8: with the scenario constants passed as positive parameters and all
other inputs fixed, a larger transfer passes through to the income floor
and strictly raises nominal consumption. -/
theorem bdp_monotonicity (pop : ℤ) (mpc : ℚ) (r : SeedRecord) (b1 b2 : ℚ)
    (hpop : 0 < pop) (hmpc : 0 < mpc) (hb : b1 < b2) :
    (computeRecord pop mpc b1 r).income_floor = b1 ∧
    (computeRecord pop mpc b2 r).income_floor = b2 ∧
    (computeRecord pop mpc b1 r).nominal_consumption
      < (computeRecord pop mpc b2 r).nominal_consumption := by
  refine ⟨rfl, rfl, ?_⟩
  show nominalConsumption pop mpc b1 r < nominalConsumption pop mpc b2 r
  have hp : (0 : ℚ) < (pop : ℚ) := by exact_mod_cast hpop
  have hU : ∀ b : ℚ, totalIncome pop b r
      = (nEmployed pop r : ℚ) * r.marketWage + (pop : ℚ) * b := by
    intro b
    rw [totalIncome, nUnemployed, yEmployed, yUnemployed]
    push_cast
    ring
  rw [nominalConsumption, nominalConsumption,
    div_lt_div_iff_of_pos_right hp, mul_lt_mul_right hmpc, hU b1, hU b2]
  have := mul_lt_mul_of_pos_left hb hp
  linarith

/-- Witness for C8 at concrete parameters and transfers 0 < 2000. -/
theorem bdp_monotonicity_witness :
    (computeRecord 10 (1/2) 0 scenarioRecord).income_floor = 0 ∧
    (computeRecord 10 (1/2) 2000 scenarioRecord).income_floor = 2000 ∧
    (computeRecord 10 (1/2) 0 scenarioRecord).nominal_consumption
      < (computeRecord 10 (1/2) 2000 scenarioRecord).nominal_consumption :=
  bdp_monotonicity 10 (1/2) scenarioRecord 0 2000 (by norm_num) (by norm_num)
    (by norm_num)

/-- C9: `compute_welfare` is a pure per-row map — the batch length equals
the input length, the i-th output is a function of the i-th input row and
the constants alone, and two inputs agreeing on row i produce the same
i-th output whatever their other rows are. -/
theorem per_record_independence (bdp : ℚ) :
    (∀ df : List SeedRecord, (compute_welfare df bdp).length = df.length) ∧
    (∀ (df : List SeedRecord) (i : ℕ),
      (compute_welfare df bdp)[i]? = (df[i]?).map (computeRecord POP MPC bdp)) ∧
    (∀ (df1 df2 : List SeedRecord) (i : ℕ), df1[i]? = df2[i]? →
      (compute_welfare df1 bdp)[i]? = (compute_welfare df2 bdp)[i]?) := by
  refine ⟨fun df => List.length_map df _,
    fun df i => List.getElem?_map _ df i, fun df1 df2 i h => ?_⟩
  rw [compute_welfare, compute_welfare, List.getElem?_map, List.getElem?_map, h]

/-- Witness for C9: two batches agreeing on row 0 but differing elsewhere
produce the same 0-th output record. -/
theorem per_record_independence_witness :
    (compute_welfare [scenarioRecord,
      { unemploymentRate := 1/2, marketWage := 0, priceLevel := 1 }] 2000)[0]?
      = (compute_welfare [scenarioRecord] 2000)[0]? :=
  (per_record_independence 2000).2.2 _ _ 0 rfl

/-- C10: with `unemploymentRate ∈ [0, 1]` the two class counts partition
the population exactly: they sum to `POP` and each lies in `[0, POP]`. -/
theorem population_partition (r : SeedRecord)
    (h0 : 0 ≤ r.unemploymentRate) (h1 : r.unemploymentRate ≤ 1) :
    nEmployed POP r + nUnemployed POP r = POP ∧
    0 ≤ nEmployed POP r ∧ nEmployed POP r ≤ POP ∧
    0 ≤ nUnemployed POP r ∧ nUnemployed POP r ≤ POP := by
  have hE0 := nEmployed_nonneg r h1
  have hEP := nEmployed_le_POP r h0 h1
  refine ⟨by rw [nUnemployed]; ring, hE0, hEP, ?_, ?_⟩ <;>
    rw [nUnemployed] <;> omega

/-- Witness for C10 at the concrete §8 scenario. -/
theorem population_partition_witness :
    nEmployed POP scenarioRecord + nUnemployed POP scenarioRecord = POP ∧
    0 ≤ nEmployed POP scenarioRecord ∧ nEmployed POP scenarioRecord ≤ POP ∧
    0 ≤ nUnemployed POP scenarioRecord ∧ nUnemployed POP scenarioRecord ≤ POP :=
  population_partition scenarioRecord (by norm_num [scenarioRecord])
    (by norm_num [scenarioRecord])

end McWelfare
